import Mathlib

/-!
Verification of the `cheque` checked-arithmetic wrapper.

Shallow embedding of `src/lib.rs`: the `Checker<T>(Option<T>)` wrapper,
the operator dispatch produced by the `impl_checked!` macro (both the
`Checker ⊕ Checker` and the `Checker ⊕ raw` signatures), the two
`PartialEq` implementations, the derived `Checker`-to-`Checker` equality,
and the `let_checked!` declaration helper.

Machine integers of a given Rust type `T` are modelled as mathematical
integers together with the representable range of `T`
(an `IntRange`, e.g. `[0, 255]` for `u8`).  The `num_traits` checked
operations (`checked_add`, `checked_sub`, `checked_mul`, `checked_div`)
for primitive integers return `some` exactly when the mathematical
result is representable, and `none` otherwise; `checked_div` in addition
returns `none` for a zero divisor.  Rust division on integers truncates
toward zero, which is `Int.tdiv`.
-/

/-- The representable range of a Rust primitive integer type:
`lo = 0, hi = 2^w - 1` for an unsigned type of width `w`, and
`lo = -2^(w-1), hi = 2^(w-1) - 1` for a signed one. -/
structure IntRange where
  lo : Int
  hi : Int
deriving DecidableEq, Repr

/-- `x` is representable in range `R`. -/
def IntRange.inRange (R : IntRange) (x : Int) : Prop :=
  R.lo ≤ x ∧ x ≤ R.hi

instance (R : IntRange) (x : Int) : Decidable (R.inRange x) := by
  unfold IntRange.inRange; infer_instance

/-- Rust `checked_add` on a primitive of range `R`: `some (a + b)` when
the sum is representable, `none` on overflow. -/
def checked_add (R : IntRange) (a b : Int) : Option Int :=
  if R.inRange (a + b) then some (a + b) else none

/-- Rust `checked_sub` on a primitive of range `R`: `some (a - b)` when
the difference is representable, `none` on overflow/underflow. -/
def checked_sub (R : IntRange) (a b : Int) : Option Int :=
  if R.inRange (a - b) then some (a - b) else none

/-- Rust `checked_mul` on a primitive of range `R`: `some (a * b)` when
the product is representable, `none` on overflow. -/
def checked_mul (R : IntRange) (a b : Int) : Option Int :=
  if R.inRange (a * b) then some (a * b) else none

/-- Rust `checked_div` on a primitive of range `R`: `none` when the
divisor is zero, otherwise `some` of the truncated quotient when it is
representable and `none` when it is not (for in-range operands over a
two's-complement range the unrepresentable case is exactly `MIN / -1`). -/
def checked_div (R : IntRange) (a b : Int) : Option Int :=
  if b = 0 then none
  else if R.inRange (Int.tdiv a b) then some (Int.tdiv a b) else none

/-- The bundle of `num_traits` checked operations the `impl_checked!`
macro requires of `T` (the trait bounds `CheckedAdd`, `CheckedSub`,
`CheckedMul`, `CheckedDiv`). -/
structure CheckedOps (T : Type) where
  checked_add : T → T → Option T
  checked_sub : T → T → Option T
  checked_mul : T → T → Option T
  checked_div : T → T → Option T

/-- The checked operations of a Rust primitive integer of range `R`. -/
def intCheckedOps (R : IntRange) : CheckedOps Int :=
  ⟨checked_add R, checked_sub R, checked_mul R, checked_div R⟩

/-- `u8`: unsigned, 8 bits. -/
def u8Range : IntRange := ⟨0, 255⟩

/-- `i8`: signed, 8 bits. -/
def i8Range : IntRange := ⟨-128, 127⟩

/-- `usize` on a 64-bit target. -/
def usizeRange : IntRange := ⟨0, 18446744073709551615⟩

/-- `pub struct Checker<T>(pub Option<T>)` from `src/lib.rs`. -/
structure Checker (T : Type) where
  payload : Option T
deriving DecidableEq, Repr

/-- `Checker(Some(x))`, the present state produced by `let_checked!`. -/
def wrap {T : Type} (x : T) : Checker T :=
  ⟨some x⟩

/-- The `Deref` impl: `*c` views the wrapped `Option<T>`. -/
def Checker.deref {T : Type} (c : Checker T) : Option T :=
  c.payload

/-- The `Checker ⊕ Checker` body of `impl_checked!`:
`if let (Some(l), Some(r)) = (self.0, rhs.0) { Checker(l.checked_fn(&r)) }
else { Checker(None) }`. -/
def checkerOp {T : Type} (f : T → T → Option T) (self rhs : Checker T) :
    Checker T :=
  match self.payload, rhs.payload with
  | some l, some r => ⟨f l r⟩
  | _, _ => ⟨none⟩

/-- The `Checker ⊕ raw T` body of `impl_checked!`:
`Checker(self.0.and_then(|l| l.checked_fn(&rhs)))`. -/
def checkerOpRaw {T : Type} (f : T → T → Option T) (self : Checker T)
    (rhs : T) : Checker T :=
  ⟨self.payload.bind fun l => f l rhs⟩

/-- `Add<Checker<T>> for Checker<T>` (`impl_checked![Add, add, ...]`). -/
def Checker.add {T : Type} (ops : CheckedOps T) (a b : Checker T) : Checker T :=
  checkerOp ops.checked_add a b

/-- `Add<T> for Checker<T>`. -/
def Checker.addRaw {T : Type} (ops : CheckedOps T) (a : Checker T) (b : T) :
    Checker T :=
  checkerOpRaw ops.checked_add a b

/-- `Sub<Checker<T>> for Checker<T>`. -/
def Checker.sub {T : Type} (ops : CheckedOps T) (a b : Checker T) : Checker T :=
  checkerOp ops.checked_sub a b

/-- `Sub<T> for Checker<T>`. -/
def Checker.subRaw {T : Type} (ops : CheckedOps T) (a : Checker T) (b : T) :
    Checker T :=
  checkerOpRaw ops.checked_sub a b

/-- `Mul<Checker<T>> for Checker<T>`. -/
def Checker.mul {T : Type} (ops : CheckedOps T) (a b : Checker T) : Checker T :=
  checkerOp ops.checked_mul a b

/-- `Mul<T> for Checker<T>`. -/
def Checker.mulRaw {T : Type} (ops : CheckedOps T) (a : Checker T) (b : T) :
    Checker T :=
  checkerOpRaw ops.checked_mul a b

/-- `Div<Checker<T>> for Checker<T>`. -/
def Checker.div {T : Type} (ops : CheckedOps T) (a b : Checker T) : Checker T :=
  checkerOp ops.checked_div a b

/-- `Div<T> for Checker<T>`. -/
def Checker.divRaw {T : Type} (ops : CheckedOps T) (a : Checker T) (b : T) :
    Checker T :=
  checkerOpRaw ops.checked_div a b

/-- `PartialEq<T> for Checker<T>`: `self.0 == Some(*other)`. -/
def Checker.eqRaw {T : Type} [DecidableEq T] (self : Checker T) (other : T) :
    Bool :=
  decide (self.payload = some other)

/-- `PartialEq<Option<T>> for Checker<T>`: `&self.0 == other`. -/
def Checker.eqOpt {T : Type} [DecidableEq T] (self : Checker T)
    (other : Option T) : Bool :=
  decide (self.payload = other)

/-- The derived `PartialEq` on `Checker<T>` itself: field-wise equality
of the wrapped `Option<T>` payloads. -/
def Checker.eqChecker {T : Type} [DecidableEq T] (self other : Checker T) :
    Bool :=
  decide (self.payload = other.payload)

/-- `let_checked![x1, ..., xn]` rebinds each listed name to
`Checker(Some(x))`; modelled on a list of the bound values. -/
def let_checked {T : Type} (xs : List T) : List (Checker T) :=
  xs.map wrap

/-- One step of an arithmetic chain: which operator is applied and what
its right-hand operand is (a `Checker` or a raw value). -/
inductive ChainOp (T : Type) where
  | addC : Checker T → ChainOp T
  | subC : Checker T → ChainOp T
  | mulC : Checker T → ChainOp T
  | divC : Checker T → ChainOp T
  | addR : T → ChainOp T
  | subR : T → ChainOp T
  | mulR : T → ChainOp T
  | divR : T → ChainOp T

/-- Apply one chain step to an accumulated `Checker` value. -/
def applyOp {T : Type} (ops : CheckedOps T) (acc : Checker T) :
    ChainOp T → Checker T
  | .addC c => Checker.add ops acc c
  | .subC c => Checker.sub ops acc c
  | .mulC c => Checker.mul ops acc c
  | .divC c => Checker.div ops acc c
  | .addR x => Checker.addRaw ops acc x
  | .subR x => Checker.subRaw ops acc x
  | .mulR x => Checker.mulRaw ops acc x
  | .divR x => Checker.divRaw ops acc x

/-- Run a whole chain of operator applications left to right. -/
def runChain {T : Type} (ops : CheckedOps T) (start : Checker T)
    (chain : List (ChainOp T)) : Checker T :=
  chain.foldl (applyOp ops) start

/-- C1: if `a + b` is representable in `T`, both addition signatures give
`present (a + b)`; if it overflows, both give `absent`. -/
theorem add_overflow_contract (R : IntRange) (a b : Int) :
    (R.inRange (a + b) →
      Checker.add (intCheckedOps R) (wrap a) (wrap b) = wrap (a + b) ∧
      Checker.addRaw (intCheckedOps R) (wrap a) b = wrap (a + b)) ∧
    (¬ R.inRange (a + b) →
      Checker.add (intCheckedOps R) (wrap a) (wrap b) = Checker.mk none ∧
      Checker.addRaw (intCheckedOps R) (wrap a) b = Checker.mk none) := by
  constructor <;> intro h <;>
    simp [Checker.add, Checker.addRaw, checkerOp, checkerOpRaw, intCheckedOps,
      checked_add, wrap, h]

/-- Witness for C1 at `u8`: `10 + 20` is representable and both forms give
`present 30`; `200 + 100` overflows and both forms give `absent`. -/
theorem add_overflow_contract_witness :
    (Checker.add (intCheckedOps u8Range) (wrap 10) (wrap 20) = wrap (10 + 20) ∧
      Checker.addRaw (intCheckedOps u8Range) (wrap 10) 20 = wrap (10 + 20)) ∧
    (Checker.add (intCheckedOps u8Range) (wrap 200) (wrap 100) = Checker.mk none ∧
      Checker.addRaw (intCheckedOps u8Range) (wrap 200) 100 = Checker.mk none) :=
  ⟨(add_overflow_contract u8Range 10 20).1 (by decide),
   (add_overflow_contract u8Range 200 100).2 (by decide)⟩

/-- C2: absence is absorbing: when either operand is absent the result
is absent.  Applying any single operator step (with a present, absent or
raw right operand) to an absent value gives an absent value; with any
left operand (present or absent), each of the four operators applied to
an absent `Checker` right operand gives an absent value; both hold for
every bundle of checked operations, so the checked operation itself is
never consulted; and any chain of steps starting from an absent value
ends absent. -/
theorem absent_absorbing {T : Type} (ops : CheckedOps T) :
    (∀ op : ChainOp T, applyOp ops (Checker.mk none) op = Checker.mk none) ∧
    (∀ x : Checker T,
      Checker.add ops x (Checker.mk none) = Checker.mk none ∧
      Checker.sub ops x (Checker.mk none) = Checker.mk none ∧
      Checker.mul ops x (Checker.mk none) = Checker.mk none ∧
      Checker.div ops x (Checker.mk none) = Checker.mk none) ∧
    (∀ chain : List (ChainOp T),
      runChain ops (Checker.mk none) chain = Checker.mk none) := by
  have hstep : ∀ op : ChainOp T,
      applyOp ops (Checker.mk none) op = Checker.mk none := by
    intro op
    cases op <;> rfl
  refine ⟨hstep, ?_, ?_⟩
  · intro x
    obtain ⟨p⟩ := x
    cases p <;> exact ⟨rfl, rfl, rfl, rfl⟩
  · intro chain
    induction chain with
    | nil => rfl
    | cons op rest ih =>
      show runChain ops (applyOp ops (Checker.mk none) op) rest =
        Checker.mk none
      rw [hstep op]
      exact ih

/-- C4: equality round-trip: `wrap x == x`, `wrap x == Some x`,
`absent == None`, and `absent` never equals a raw value. -/
theorem eq_roundtrip {T : Type} [DecidableEq T] (x : T) :
    Checker.eqRaw (wrap x) x = true ∧
    Checker.eqOpt (wrap x) (some x) = true ∧
    Checker.eqOpt (Checker.mk (none : Option T)) none = true ∧
    (∀ v : T, Checker.eqRaw (Checker.mk (none : Option T)) v = false) := by
  simp [Checker.eqRaw, Checker.eqOpt, wrap]

/-- Witness for C4 at `x = 7 : Int`. -/
theorem eq_roundtrip_witness :
    Checker.eqRaw (wrap (7 : Int)) 7 = true ∧
    Checker.eqOpt (wrap (7 : Int)) (some 7) = true ∧
    Checker.eqOpt (Checker.mk (none : Option Int)) none = true ∧
    (∀ v : Int, Checker.eqRaw (Checker.mk (none : Option Int)) v = false) :=
  eq_roundtrip 7

/-- C3: division by a wrapped zero or a raw zero gives `absent`, and over
a two's-complement-style range (where `-lo` exceeds `hi`) dividing the
minimum value by `-1` also gives `absent`. -/
theorem div_failure_absent (R : IntRange) (a : Int) :
    Checker.div (intCheckedOps R) (wrap a) (wrap 0) = Checker.mk none ∧
    Checker.divRaw (intCheckedOps R) (wrap a) 0 = Checker.mk none ∧
    (R.hi < -R.lo →
      Checker.div (intCheckedOps R) (wrap R.lo) (wrap (-1)) = Checker.mk none) := by
  refine ⟨?_, ?_, ?_⟩
  · simp [Checker.div, checkerOp, intCheckedOps, checked_div, wrap]
  · simp [Checker.divRaw, checkerOpRaw, intCheckedOps, checked_div, wrap]
  · intro h
    have hne : (-1 : Int) ≠ 0 := by decide
    have htd : Int.tdiv R.lo (-1) = -R.lo := by
      rw [Int.tdiv_neg, Int.tdiv_one]
    have hout : ¬ R.inRange (-R.lo) := by
      rw [IntRange.inRange]
      omega
    simp [Checker.div, checkerOp, intCheckedOps, checked_div, wrap, hne, htd,
      hout]

/-- Witness for C3 at `i8`: `5 / 0`, `5 / raw 0` and `MIN / -1` are all
absent. -/
theorem div_failure_absent_witness :
    Checker.div (intCheckedOps i8Range) (wrap 5) (wrap 0) = Checker.mk none ∧
    Checker.divRaw (intCheckedOps i8Range) (wrap 5) 0 = Checker.mk none ∧
    Checker.div (intCheckedOps i8Range) (wrap i8Range.lo) (wrap (-1)) =
      Checker.mk none :=
  ⟨(div_failure_absent i8Range 5).1,
   (div_failure_absent i8Range 5).2.1,
   (div_failure_absent i8Range 5).2.2 (by decide)⟩

/-- C5: every operator is total and reports failure only as the absent
state: each result is either absent or a representable present value;
and unsigned-style underflow (a difference below the range's lower
bound, e.g. `20usize - 100`) gives absent rather than any error. -/
theorem ops_total_no_panic (R : IntRange) (a b : Int) :
    (Checker.add (intCheckedOps R) (wrap a) (wrap b) = Checker.mk none ∨
      ∃ v, R.inRange v ∧
        Checker.add (intCheckedOps R) (wrap a) (wrap b) = wrap v) ∧
    (Checker.sub (intCheckedOps R) (wrap a) (wrap b) = Checker.mk none ∨
      ∃ v, R.inRange v ∧
        Checker.sub (intCheckedOps R) (wrap a) (wrap b) = wrap v) ∧
    (Checker.mul (intCheckedOps R) (wrap a) (wrap b) = Checker.mk none ∨
      ∃ v, R.inRange v ∧
        Checker.mul (intCheckedOps R) (wrap a) (wrap b) = wrap v) ∧
    (Checker.div (intCheckedOps R) (wrap a) (wrap b) = Checker.mk none ∨
      ∃ v, R.inRange v ∧
        Checker.div (intCheckedOps R) (wrap a) (wrap b) = wrap v) ∧
    (a - b < R.lo →
      Checker.subRaw (intCheckedOps R) (wrap a) b = Checker.mk none) := by
  refine ⟨?_, ?_, ?_, ?_, ?_⟩
  · by_cases h : R.inRange (a + b)
    · exact Or.inr ⟨a + b, h, by
        simp [Checker.add, checkerOp, intCheckedOps, checked_add, wrap, h]⟩
    · exact Or.inl (by
        simp [Checker.add, checkerOp, intCheckedOps, checked_add, wrap, h])
  · by_cases h : R.inRange (a - b)
    · exact Or.inr ⟨a - b, h, by
        simp [Checker.sub, checkerOp, intCheckedOps, checked_sub, wrap, h]⟩
    · exact Or.inl (by
        simp [Checker.sub, checkerOp, intCheckedOps, checked_sub, wrap, h])
  · by_cases h : R.inRange (a * b)
    · exact Or.inr ⟨a * b, h, by
        simp [Checker.mul, checkerOp, intCheckedOps, checked_mul, wrap, h]⟩
    · exact Or.inl (by
        simp [Checker.mul, checkerOp, intCheckedOps, checked_mul, wrap, h])
  · by_cases hz : b = 0
    · exact Or.inl (by
        simp [Checker.div, checkerOp, intCheckedOps, checked_div, wrap, hz])
    · by_cases h : R.inRange (Int.tdiv a b)
      · exact Or.inr ⟨Int.tdiv a b, h, by
          simp [Checker.div, checkerOp, intCheckedOps, checked_div, wrap, hz, h]⟩
      · exact Or.inl (by
          simp [Checker.div, checkerOp, intCheckedOps, checked_div, wrap, hz, h])
  · intro h
    have hout : ¬ R.inRange (a - b) := by
      rw [IntRange.inRange]
      omega
    simp [Checker.subRaw, checkerOpRaw, intCheckedOps, checked_sub, wrap, hout]

/-- Witness for C5 at `usize` with `a = 20`, `b = 100`: in particular the
documented `c - 100` underflow gives absent. -/
theorem ops_total_no_panic_witness :
    Checker.subRaw (intCheckedOps usizeRange) (wrap 20) 100 = Checker.mk none :=
  (ops_total_no_panic usizeRange 20 100).2.2.2.2 (by decide)

/-- C6: the crate doc example on `u8` with `a = 10`, `b = 20`:
`a + b == 30`, `b * b == None`, `b / 0 == None`, `a - 20 == None`, and
`(a - b) + 1 == None`. -/
theorem doc_example_u8 :
    Checker.eqRaw (Checker.add (intCheckedOps u8Range) (wrap 10) (wrap 20))
      30 = true ∧
    Checker.eqOpt (Checker.mul (intCheckedOps u8Range) (wrap 20) (wrap 20))
      none = true ∧
    Checker.eqOpt (Checker.divRaw (intCheckedOps u8Range) (wrap 20) 0)
      none = true ∧
    Checker.eqOpt (Checker.subRaw (intCheckedOps u8Range) (wrap 10) 20)
      none = true ∧
    Checker.eqOpt (Checker.addRaw (intCheckedOps u8Range)
      (Checker.sub (intCheckedOps u8Range) (wrap 10) (wrap 20)) 1)
      none = true := by
  decide

/-- C7: the declaration helper maps every listed bound value to a present
`Checker` wrapping it: the empty invocation is a no-op, the list of
bindings keeps its length, and the binding at every position `i` is
`Checker(Some(original value))`. -/
theorem let_checked_correct {T : Type} (xs : List T) :
    let_checked ([] : List T) = [] ∧
    (let_checked xs).length = xs.length ∧
    (∀ i : Nat, (let_checked xs)[i]? = (xs[i]?).map wrap) ∧
    (∀ (i : Nat) (x : T), xs[i]? = some x →
      (let_checked xs)[i]? = some (Checker.mk (some x))) := by
  refine ⟨rfl, by simp [let_checked], ?_, ?_⟩
  · intro i
    simp [let_checked]
  · intro i x hx
    simp [let_checked, hx, wrap]

/-- Witness for C7 at `xs = [5] : List Int`, position `0`. -/
theorem let_checked_correct_witness :
    (let_checked ([5] : List Int))[0]? = some (Checker.mk (some 5)) :=
  (let_checked_correct [5]).2.2.2 0 5 rfl

/-- C8: the `Checker ⊕ Checker` and `Checker ⊕ raw` signatures agree: on
wrapped operands every operator gives the same result in both forms, and
on an absent left operand both forms give absent. -/
theorem dual_signature_agree {T : Type} (ops : CheckedOps T) (a b : T)
    (x : Checker T) :
    (Checker.add ops (wrap a) (wrap b) = Checker.addRaw ops (wrap a) b ∧
     Checker.sub ops (wrap a) (wrap b) = Checker.subRaw ops (wrap a) b ∧
     Checker.mul ops (wrap a) (wrap b) = Checker.mulRaw ops (wrap a) b ∧
     Checker.div ops (wrap a) (wrap b) = Checker.divRaw ops (wrap a) b) ∧
    (x.payload = none →
      (Checker.add ops x (wrap b) = Checker.addRaw ops x b ∧
       Checker.add ops x (wrap b) = Checker.mk none) ∧
      (Checker.sub ops x (wrap b) = Checker.subRaw ops x b ∧
       Checker.sub ops x (wrap b) = Checker.mk none) ∧
      (Checker.mul ops x (wrap b) = Checker.mulRaw ops x b ∧
       Checker.mul ops x (wrap b) = Checker.mk none) ∧
      (Checker.div ops x (wrap b) = Checker.divRaw ops x b ∧
       Checker.div ops x (wrap b) = Checker.mk none)) := by
  constructor
  · exact ⟨rfl, rfl, rfl, rfl⟩
  · intro hx
    obtain ⟨p⟩ := x
    cases p with
    | none =>
      refine ⟨⟨rfl, rfl⟩, ⟨rfl, rfl⟩, ⟨rfl, rfl⟩, ⟨rfl, rfl⟩⟩
    | some v => simp at hx

/-- Witness for C8 at `u8`, `a = 3`, `b = 4`, `x` absent. -/
theorem dual_signature_agree_witness :
    Checker.add (intCheckedOps u8Range) (Checker.mk none) (wrap 4) =
      Checker.addRaw (intCheckedOps u8Range) (Checker.mk none) 4 ∧
    Checker.add (intCheckedOps u8Range) (Checker.mk none) (wrap 4) =
      Checker.mk none :=
  ((dual_signature_agree (intCheckedOps u8Range) 3 4 (Checker.mk none)).2
    rfl).1

/-- C9: checked addition and multiplication on wrapped operands are
commutative, absent cases included. -/
theorem add_mul_comm (R : IntRange) (a b : Int) :
    Checker.add (intCheckedOps R) (wrap a) (wrap b) =
      Checker.add (intCheckedOps R) (wrap b) (wrap a) ∧
    Checker.mul (intCheckedOps R) (wrap a) (wrap b) =
      Checker.mul (intCheckedOps R) (wrap b) (wrap a) := by
  constructor
  · show Checker.mk (checked_add R a b) = Checker.mk (checked_add R b a)
    rw [checked_add, checked_add, Int.add_comm a b]
  · show Checker.mk (checked_mul R a b) = Checker.mk (checked_mul R b a)
    rw [checked_mul, checked_mul, Int.mul_comm a b]

/-- C10: two `Checker` values compare equal exactly when their optional
payloads are equal; two absent values are equal, and a present value is
never equal to an absent one. -/
theorem checker_eq_iff {T : Type} [DecidableEq T] (c d : Checker T) :
    (Checker.eqChecker c d = true ↔ c.payload = d.payload) ∧
    Checker.eqChecker (Checker.mk (none : Option T)) (Checker.mk none) =
      true ∧
    (∀ x : T, Checker.eqChecker (wrap x) (Checker.mk none) = false) := by
  refine ⟨?_, ?_, ?_⟩
  · simp [Checker.eqChecker]
  · simp [Checker.eqChecker]
  · intro x
    simp [Checker.eqChecker, wrap]

/-- Witness for C10 at `Int`: `wrap 3` equals `wrap 3`. -/
theorem checker_eq_iff_witness :
    Checker.eqChecker (wrap (3 : Int)) (wrap 3) = true :=
  (checker_eq_iff (wrap (3 : Int)) (wrap 3)).1.mpr rfl
